import Mathlib

/-!
Shallow embedding of `src/export.py`.

The script loops over a fixed list of Salesforce object types.  For each one
it (1) runs a `describe` CLI command capturing stdout and stderr, (2) parses
the concatenated output as JSON, (3) collects the names of fields whose
`referenceTo` list contains `"Account"`, (4) skips the object when no such
field was found, (5) prepends `Id`, deduplicates, builds a SOQL query, and
(6) runs a bulk-export command, deeming it successful exactly when the exit
code is zero and the output file exists.

Debug printing and the raw file dump are presentation/IO detail excluded by
the specification; everything with decision content is embedded below.
Python dynamic typing is modelled explicitly: operations that would raise an
uncaught `TypeError`/`AttributeError` (for example `'result' in data` on a
parsed response that is `null`) return `Except.error ()`.
-/

namespace SFExport

/-- JSON values as produced by Python's `json.loads`.  Numeric payloads keep
their source lexeme (`raw`): no claim inspects numeric values, and this
avoids committing to a float semantics. -/
inductive JVal where
  | null
  | bool (b : Bool)
  | num (raw : String)
  | str (s : String)
  | arr (items : List JVal)
  | obj (pairs : List (String × JVal))

/-! ### Character-list utilities for the JSON scanner -/

/-- `startsWith hay pat` : `pat` is an initial segment of `hay`. -/
def startsWith : List Char → List Char → Bool
  | _, [] => true
  | [], _ :: _ => false
  | c :: cs, p :: ps => c = p && startsWith cs ps

/-- Python substring test `pat in hay` for strings. -/
def hasSub : List Char → List Char → Bool
  | [], pat => startsWith [] pat
  | c :: t, pat => startsWith (c :: t) pat || hasSub t pat

/-- JSON whitespace, as accepted between tokens by `json.loads`. -/
def isWsChar (c : Char) : Bool :=
  c = ' ' || c = '\t' || c = '\n' || c = '\r'

/-- Drop leading JSON whitespace. -/
def skipWs : List Char → List Char
  | [] => []
  | c :: cs => if isWsChar c then skipWs cs else c :: cs

def isDigitChar (c : Char) : Bool := '0' ≤ c && c ≤ '9'

/-- Longest digit run at the front, plus the remainder. -/
def takeDigits : List Char → (List Char × List Char)
  | [] => ([], [])
  | c :: cs =>
    if isDigitChar c then
      let p := takeDigits cs
      (c :: p.1, p.2)
    else ([], c :: cs)

/-- Value of one hexadecimal digit, by code point (`0`-`9`, `a`-`f`,
`A`-`F`). -/
def hexDigitVal (c : Char) : Option Nat :=
  let n := c.toNat
  if 48 ≤ n && n ≤ 57 then some (n - 48)
  else if 97 ≤ n && n ≤ 102 then some (n - 87)
  else if 65 ≤ n && n ≤ 70 then some (n - 55)
  else none

/-- Value of a four-hex-digit escape payload. -/
def hexQuad (a b c d : Char) : Option Nat :=
  match hexDigitVal a, hexDigitVal b, hexDigitVal c, hexDigitVal d with
  | some w, some x, some y, some z => some (w * 4096 + (x * 256 + (y * 16 + z)))
  | _, _, _, _ => none

/-- Body of a JSON string literal (opening quote already consumed): returns
the decoded characters and the text after the closing quote.  Escapes follow
`json.loads` in strict mode; a `\uXXXX` surrogate pair is combined, and a
lone surrogate (which Python would keep but a Lean `Char` cannot) decodes to
U+FFFD.  Fuel-driven so that it reduces definitionally; `json_loads` always
supplies enough fuel. -/
def parseStringBody : Nat → List Char → Option (List Char × List Char)
  | 0, _ => none
  | _ + 1, [] => none
  | _ + 1, '"' :: rest => some ([], rest)
  | fuel + 1, '\\' :: rest =>
    match rest with
    | [] => none
    | 'u' :: h1 :: h2 :: h3 :: h4 :: rest3 => do
      let n ← hexQuad h1 h2 h3 h4
      if 55296 ≤ n ∧ n ≤ 56319 then
        -- high surrogate: try to combine with a following low-surrogate escape
        match rest3 with
        | '\\' :: 'u' :: g1 :: g2 :: g3 :: g4 :: rest4 => do
          let m ← hexQuad g1 g2 g3 g4
          if 56320 ≤ m ∧ m ≤ 57343 then
            let p ← parseStringBody fuel rest4
            pure (Char.ofNat (65536 + ((n - 55296) * 1024 + (m - 56320))) :: p.1, p.2)
          else do
            let p ← parseStringBody fuel rest3
            pure (Char.ofNat 65533 :: p.1, p.2)
        | _ => do
          let p ← parseStringBody fuel rest3
          pure (Char.ofNat 65533 :: p.1, p.2)
      else if 56320 ≤ n ∧ n ≤ 57343 then do
        let p ← parseStringBody fuel rest3
        pure (Char.ofNat 65533 :: p.1, p.2)
      else do
        let p ← parseStringBody fuel rest3
        pure (Char.ofNat n :: p.1, p.2)
    | e :: rest2 => do
      let c ← (match e with
        | '"' => some '"'
        | '\\' => some '\\'
        | '/' => some '/'
        | 'b' => some (Char.ofNat 8)
        | 'f' => some (Char.ofNat 12)
        | 'n' => some '\n'
        | 'r' => some '\r'
        | 't' => some '\t'
        | _ => none)
      let p ← parseStringBody fuel rest2
      pure (c :: p.1, p.2)
  | fuel + 1, c :: rest =>
    if c.toNat < 0x20 then none
    else do
      let p ← parseStringBody fuel rest
      pure (c :: p.1, p.2)

/-- Number token per RFC 8259 plus Python's `Infinity` extension, without the
leading sign: returns the raw lexeme.  As in CPython's scanner, the optional
fraction/exponent groups are taken atomically or not at all. -/
def parseNumAbs (cs : List Char) : Option (List Char × List Char) :=
  if startsWith cs "Infinity".toList then some ("Infinity".toList, cs.drop 8)
  else
    match cs with
    | [] => none
    | c :: rest =>
      if isDigitChar c then
        let ip : List Char × List Char :=
          if c = '0' then (['0'], rest) else takeDigits (c :: rest)
        let fp : List Char × List Char :=
          match ip.2 with
          | '.' :: r2 =>
            let d := takeDigits r2
            if d.1 = [] then ([], ip.2) else ('.' :: d.1, d.2)
          | _ => ([], ip.2)
        let ep : List Char × List Char :=
          match fp.2 with
          | e :: r3 =>
            if e = 'e' ∨ e = 'E' then
              match r3 with
              | s :: r4 =>
                if s = '+' ∨ s = '-' then
                  let d := takeDigits r4
                  if d.1 = [] then ([], fp.2) else (e :: s :: d.1, d.2)
                else
                  let d := takeDigits r3
                  if d.1 = [] then ([], fp.2) else (e :: d.1, d.2)
              | [] => ([], fp.2)
            else ([], fp.2)
          | [] => ([], fp.2)
        some (ip.1 ++ fp.1 ++ ep.1, ep.2)
      else none

/-- Number token with optional leading minus (`-Infinity` included, per
CPython's scanner). -/
def parseNumberTok : List Char → Option (List Char × List Char)
  | '-' :: rest => (parseNumAbs rest).map (fun p => ('-' :: p.1, p.2))
  | cs => parseNumAbs cs

/-- Recursion modes of the JSON scanner: a value, the inside of `{`..`}`, the
member list with its accumulator, the inside of `[`..`]`, the item list with
its accumulator. -/
inductive PMode where
  | value
  | objBody
  | members (acc : List (String × JVal))
  | arrBody
  | items (acc : List JVal)

/-- Insert a key into an object under construction: as in a Python dict, a
duplicate key keeps its original position but takes the new value. -/
def insertKV (acc : List (String × JVal)) (k : String) (v : JVal) : List (String × JVal) :=
  if acc.any (fun p => p.1 = k) then
    acc.map (fun p => if p.1 = k then (k, v) else p)
  else acc ++ [(k, v)]

/-- One recursive JSON scanner covering all modes, structurally recursive on
fuel so that it reduces definitionally.  Mirrors `json.loads`' grammar:
leading whitespace handled by callers, keywords `true`/`false`/`null` plus
Python's `NaN`/`Infinity`/`-Infinity`, strings, numbers, objects, arrays. -/
def parseStep : Nat → PMode → List Char → Option (JVal × List Char)
  | 0, _, _ => none
  | fuel + 1, .value, cs =>
    match cs with
    | '{' :: rest => parseStep fuel .objBody (skipWs rest)
    | '[' :: rest => parseStep fuel .arrBody (skipWs rest)
    | '"' :: rest =>
      match parseStringBody (rest.length + 1) rest with
      | some (content, r) => some (.str (String.mk content), r)
      | none => none
    | _ =>
      if startsWith cs "true".toList then some (.bool true, cs.drop 4)
      else if startsWith cs "false".toList then some (.bool false, cs.drop 5)
      else if startsWith cs "null".toList then some (.null, cs.drop 4)
      else if startsWith cs "NaN".toList then some (.num "NaN", cs.drop 3)
      else
        match parseNumberTok cs with
        | some (raw, r) => some (.num (String.mk raw), r)
        | none => none
  | fuel + 1, .objBody, cs =>
    match cs with
    | '}' :: rest => some (.obj [], rest)
    | _ => parseStep fuel (.members []) cs
  | fuel + 1, .members acc, cs =>
    match cs with
    | '"' :: rest =>
      match parseStringBody (rest.length + 1) rest with
      | some (k, r1) =>
        match skipWs r1 with
        | ':' :: r3 =>
          match parseStep fuel .value (skipWs r3) with
          | some (v, r4) =>
            let acc2 := insertKV acc (String.mk k) v
            match skipWs r4 with
            | ',' :: r6 => parseStep fuel (.members acc2) (skipWs r6)
            | '}' :: r6 => some (.obj acc2, r6)
            | _ => none
          | none => none
        | _ => none
      | none => none
    | _ => none
  | fuel + 1, .arrBody, cs =>
    match cs with
    | ']' :: rest => some (.arr [], rest)
    | _ => parseStep fuel (.items []) cs
  | fuel + 1, .items acc, cs =>
    match parseStep fuel .value cs with
    | some (v, r1) =>
      match skipWs r1 with
      | ',' :: r3 => parseStep fuel (.items (acc ++ [v])) (skipWs r3)
      | ']' :: r3 => some (.arr (acc ++ [v]), r3)
      | _ => none
    | none => none

/-- Model of Python's `json.loads` (line 100 of the source): parse one value,
then require only trailing whitespace.  Failure of any kind is `none`
(`json.JSONDecodeError`).  The fuel `3 * length + 8` dominates the scanner's
call depth, which advances past at least one character for every three
recursive steps. -/
def json_loads (s : String) : Option JVal :=
  match parseStep (3 * s.length + 8) .value (skipWs s.toList) with
  | some (v, rest) => if skipWs rest = [] then some v else none
  | none => none

/-! ### Python dynamic operations used by the field filter

Each returns `Except.error ()` exactly where CPython raises an uncaught
`TypeError` / `AttributeError` / `KeyError`. -/

/-- Python `'k' in list-of-JSON-values`: membership by `==`; a string equals
only the same string among JSON values. -/
def strElem (xs : List JVal) (needle : String) : Bool :=
  xs.any (fun v => match v with | .str s => s == needle | _ => false)

/-- Python `needle in v` for the JSON value `v`: key membership on a dict,
element membership on a list, substring test on a string; `TypeError`
otherwise (for example `'result' in None`). -/
def pyIn (needle : String) : JVal → Except Unit Bool
  | .obj kvs => .ok (List.lookup needle kvs).isSome
  | .arr xs => .ok (strElem xs needle)
  | .str s => .ok (hasSub s.toList needle.toList)
  | _ => .error ()

/-- Python `v[k]` for a string key: only a dict succeeds; a list or string
indexed by a string, or any other value, raises `TypeError`; a missing key
raises `KeyError`. -/
def pyIndex : JVal → String → Except Unit JVal
  | .obj kvs, k =>
    match List.lookup k kvs with
    | some v => .ok v
    | none => .error ()
  | _, _ => .error ()

/-- Python `v.get(k, dflt)`: only a dict has `.get` (otherwise
`AttributeError`). -/
def pyGetD : JVal → String → JVal → Except Unit JVal
  | .obj kvs, k, dflt => .ok ((List.lookup k kvs).getD dflt)
  | _, _, _ => .error ()

/-- Whether a parsed number lexeme denotes zero (`0`, `-0.00`, `0e5`, ...):
after dropping the sign, every mantissa character (before any exponent
marker) is `0` or `.`.  `NaN` and `Infinity` are non-zero — and indeed
truthy in Python. -/
def numIsZero (raw : String) : Bool :=
  let cs := match raw.toList with
    | '-' :: t => t
    | other => other
  (cs.takeWhile (fun c => c ≠ 'e' ∧ c ≠ 'E')).all (fun c => c = '0' ∨ c = '.')

/-- Python truthiness of a parsed JSON value: `None`, `False`, zero, and
empty strings/lists/dicts are falsy. -/
def pyTruthy : JVal → Bool
  | .null => false
  | .bool b => b
  | .num raw => !numIsZero raw
  | .str s => !s.isEmpty
  | .arr items => !items.isEmpty
  | .obj pairs => !pairs.isEmpty

/-- Python `v.keys()`: only a dict has `.keys` (otherwise
`AttributeError`). -/
def pyKeys : JVal → Except Unit (List String)
  | .obj kvs => .ok (kvs.map Prod.fst)
  | _ => .error ()

/-- Lines 106-107: `if describe_data: print(..., describe_data.keys())`.
The print itself is presentation detail, but evaluating
`describe_data.keys()` raises `AttributeError` on every truthy non-dict
parsed response, aborting the run. -/
def debugKeysStep (d : JVal) : Except Unit Unit :=
  if pyTruthy d then
    match pyKeys d with
    | .ok _ => .ok ()
    | .error e => .error e
  else .ok ()

/-! ### Schema filter (source lines 127-168) -/

/-- Lines 137-138 / 151-152: the field qualifies when
`'referenceTo' in field and isinstance(field['referenceTo'], list) and
'Account' in field['referenceTo']`, with the same evaluation order of the
potentially-raising operations. -/
def fieldQualifies (f : JVal) : Except Unit Bool := do
  let present ← pyIn "referenceTo" f
  if present then
    let v ← pyIndex f "referenceTo"
    match v with
    | .arr xs => pure (strElem xs "Account")
    | _ => pure false
  else pure false

/-- Lines 135-140 / 150-154: walk the located field entries, appending
`field.get('name', '')` for each qualifying one.  (The debug print of the
field's type and references is presentation detail and omitted.) -/
def collectFields : List JVal → Except Unit (List JVal)
  | [] => .ok []
  | f :: rest => do
    let q ← fieldQualifies f
    if q then
      let n ← pyGetD f "name" (.str "")
      let ns ← collectFields rest
      pure (n :: ns)
    else collectFields rest

/-- Lines 158-161: the `else` branch reached when no field list is located.
Line 160 computes
`', '.join(describe_data.get('result', {}).keys()) if 'result' in describe_data else 'N/A'`
for a diagnostic print: the print is presentation detail, but `.keys()`
raises `AttributeError` whenever `'result'` is present and its value is not
a dict (e.g. a list or a string in which no field list was found). -/
def elseBranch (d : JVal) : Except Unit (Option (List JVal)) := do
  let hasRes ← pyIn "result" d
  if hasRes then
    let v ← pyGetD d "result" (JVal.obj [])
    let _ ← pyKeys v
    pure none
  else pure none

/-- Lines 146-161: the `elif` branch checking a top-level `fields` list; a
present but non-list `fields`, or no `fields` at all, falls through to the
`else` branch (and its line 160 diagnostic). -/
def fallbackFields (d : JVal) : Except Unit (Option (List JVal)) := do
  let hasF ← pyIn "fields" d
  if hasF then
    let v ← pyIndex d "fields"
    match v with
    | .arr xs => pure (some xs)
    | _ => elseBranch d
  else elseBranch d

/-- Lines 130-161: locate the field entries, trying `result.fields` first and
then the top-level `fields`, exactly in the source's condition order
(`'result' in d`, `d['result']`, `'fields' in d['result']`,
`d['result']['fields']`, `isinstance`). -/
def locatedFields (d : JVal) : Except Unit (Option (List JVal)) := do
  let hasRes ← pyIn "result" d
  if hasRes then
    let r ← pyIndex d "result"
    let hasF ← pyIn "fields" r
    if hasF then
      let v ← pyIndex r "fields"
      match v with
      | .arr xs => pure (some xs)
      | _ => fallbackFields d
    else fallbackFields d
  else fallbackFields d

/-- Lines 127-161: the collected `field_list` for one parsed describe
response (no located sequence means zero fields). -/
def field_list (d : JVal) : Except Unit (List JVal) := do
  match ← locatedFields d with
  | some fs => collectFields fs
  | none => pure []

/-! ### Query construction (source lines 183-186) -/

/-- Keep-first deduplication, the order-preserving semantics of
`list(dict.fromkeys(...))` on line 184. -/
def pyDedup {α : Type} [DecidableEq α] : List α → List α
  | [] => []
  | x :: xs => x :: (pyDedup xs).filter (fun y => y ≠ x)

/-- Line 184: `field_list = list(dict.fromkeys(['Id'] + field_list))`. -/
def selectedFields (names : List String) : List String :=
  pyDedup ("Id" :: names)

/-- Line 185: `select_clause = ', '.join(field_list)`. -/
def select_clause (fl : List String) : String :=
  String.intercalate ", " fl

/-- Line 186: `query = f"SELECT {select_clause} FROM {obj}"`. -/
def query (fl : List String) (objName : String) : String :=
  "SELECT " ++ select_clause fl ++ " FROM " ++ objName

/-! ### Export execution and verification (source lines 214-253) -/

/-- Lines 230-235: the export subprocess's exit code; an invocation-level
exception is caught and replaced by the sentinel `-1`. -/
def exportStep (exportRes : Option Int) : Int :=
  match exportRes with
  | some code => code
  | none => -1

/-- Line 250: success exactly when the exit code is `0` and a file exists at
the output path. -/
def verify (exitCode : Int) (fileExists : Bool) : Bool :=
  exitCode == 0 && fileExists

/-- Line 86: the text handed to the JSON parser (and dumped to the debug
file) is stdout followed by stderr. -/
def describe_output (out err : String) : String := out ++ err

/-- Per-object outcome of one loop iteration. -/
inductive Outcome where
  | describeFailed
  | unparseable
  | noFields
  | exported (soql : String) (success : Bool)

/-- String payload of a JSON string value. -/
def JVal.asStr : JVal → Option String
  | .str s => some s
  | _ => none

/-- All-strings view of the collected names.  On line 184 `dict.fromkeys`
raises `TypeError` on an unhashable entry and on line 185 `', '.join` raises
`TypeError` on any non-string entry; a non-string name therefore always
aborts with an uncaught exception before the query is built, which this
single guard models. -/
def toStrings (l : List JVal) : Option (List String) :=
  l.mapM JVal.asStr

/-- One iteration of the loop (lines 41-256) for one object type.
`describeRes` is the describe subprocess result (`none` = the line 87
exception, otherwise captured stdout and stderr), `exportRes` the export
subprocess result (`none` = the line 233 exception), `fileExists` the
line 250 existence check.  `Except.error ()` marks an uncaught exception
escaping the loop body, including the line 107 `describe_data.keys()`
`AttributeError` on truthy non-dict responses. -/
def processObject (objName : String) (describeRes : Option (String × String))
    (exportRes : Option Int) (fileExists : Bool) : Except Unit Outcome :=
  match describeRes with
  | none => .ok .describeFailed
  | some (out, err) =>
    match json_loads (describe_output out err) with
    | none => .ok .unparseable
    | some d => do
      let _ ← debugKeysStep d
      let names ← field_list d
      if names.isEmpty then pure .noFields
      else
        match toStrings names with
        | none => .error ()
        | some ns =>
          pure (.exported (query (selectedFields ns) objName)
            (verify (exportStep exportRes) fileExists))

/-- The world one loop iteration observes: the object type name and the
results of its, at most two, subprocess invocations. -/
structure ObjEnv where
  objName : String
  describeRes : Option (String × String)
  exportRes : Option Int
  fileExists : Bool

/-- The whole run (the `for obj in OBJECTS` loop): one outcome per object
type, stopping only if an uncaught exception escapes an iteration. -/
def runAll : List ObjEnv → Except Unit (List Outcome)
  | [] => .ok []
  | e :: rest => do
    let o ← processObject e.objName e.describeRes e.exportRes e.fileExists
    let os ← runAll rest
    pure (o :: os)

/-- Line 28: the configured object list. -/
def OBJECTS : List String :=
  ["Account", "Contact", "Case", "Opportunity", "Order", "Asset"]

/-! ### Generic facts about keep-first deduplication -/

theorem mem_pyDedup {α : Type} [DecidableEq α] (a : α) :
    ∀ l : List α, a ∈ pyDedup l ↔ a ∈ l := by
  intro l
  induction l with
  | nil => simp [pyDedup]
  | cons x xs ih =>
    simp only [pyDedup, List.mem_cons, List.mem_filter, decide_eq_true_eq, ih]
    by_cases h : a = x <;> simp [h]

theorem nodup_pyDedup {α : Type} [DecidableEq α] :
    ∀ l : List α, (pyDedup l).Nodup := by
  intro l
  induction l with
  | nil => simp [pyDedup]
  | cons x xs ih =>
    simp only [pyDedup, List.nodup_cons]
    refine ⟨?_, ih.filter _⟩
    intro hx
    rcases List.mem_filter.mp hx with ⟨_, hne⟩
    simp at hne

theorem pyDedup_sublist {α : Type} [DecidableEq α] :
    ∀ l : List α, List.Sublist (pyDedup l) l := by
  intro l
  induction l with
  | nil => simp [pyDedup]
  | cons x xs ih =>
    simp only [pyDedup]
    exact List.Sublist.cons₂ x ((List.filter_sublist _).trans ih)

/-- Position of the first occurrence of `a` (length of the list when
absent): the notion of "order of first occurrence" used by the spec. -/
def firstIdx {α : Type} [DecidableEq α] (a : α) : List α → Nat
  | [] => 0
  | x :: xs => if x = a then 0 else firstIdx a xs + 1

theorem pyDedup_pairwise {α : Type} [DecidableEq α] :
    ∀ l : List α, (pyDedup l).Pairwise (fun a b => firstIdx a l < firstIdx b l) := by
  intro l
  induction l with
  | nil => simp [pyDedup]
  | cons x xs ih =>
    simp only [pyDedup, List.pairwise_cons]
    constructor
    · intro b hb
      rcases List.mem_filter.mp hb with ⟨_, hbne⟩
      have hbx : b ≠ x := by simpa using hbne
      simp only [firstIdx, if_pos rfl, if_neg (Ne.symm hbx)]
      exact Nat.succ_pos _
    · have h2 := ih.filter (fun y => decide (y ≠ x))
      refine List.Pairwise.imp_of_mem ?_ h2
      intro a b ha hb hrel
      rcases List.mem_filter.mp ha with ⟨_, hane⟩
      rcases List.mem_filter.mp hb with ⟨_, hbne⟩
      have hax : a ≠ x := by simpa using hane
      have hbx : b ≠ x := by simpa using hbne
      simp only [firstIdx, if_neg (Ne.symm hax), if_neg (Ne.symm hbx)]
      exact Nat.succ_lt_succ hrel

/-! ### The spec's join, and C3 -/

/-- Joining with `", "`, written as the spec describes it. -/
def joinSpec : List String → String
  | [] => ""
  | [x] => x
  | x :: xs => x ++ ", " ++ joinSpec xs

theorem intercalate_go_eq : ∀ (as : List String) (acc : String),
    String.intercalate.go acc ", " as = joinSpec (acc :: as) := by
  intro as
  induction as with
  | nil => intro acc; rfl
  | cons a as ih =>
    intro acc
    rw [show String.intercalate.go acc ", " (a :: as)
        = String.intercalate.go (acc ++ ", " ++ a) ", " as from rfl, ih]
    cases as with
    | nil => rfl
    | cons b bs => simp [joinSpec, String.append_assoc]

theorem select_clause_eq_joinSpec : ∀ fl, select_clause fl = joinSpec fl := by
  intro fl
  cases fl with
  | nil => rfl
  | cons a as => exact intercalate_go_eq as a

/-- C3: for every object type and every `SelectedFields` sequence, the
constructed query string is exactly `"SELECT "`, the field names joined by
`", "` in sequence order, `" FROM "`, and the object type name
(source lines 184-186). -/
theorem c3_query_shape : ∀ (fl : List String) (objName : String),
    query fl objName = "SELECT " ++ joinSpec fl ++ " FROM " ++ objName := by
  intro fl objName
  simp [query, select_clause_eq_joinSpec]

/-! ### Unfolding helpers for the `Except` do-notation -/

theorem except_bind_ok {ε α β : Type} (a : α) (f : α → Except ε β) :
    (Except.ok a >>= f : Except ε β) = f a := rfl

theorem except_pure {ε α : Type} (a : α) : (pure a : Except ε α) = .ok a := rfl

/-- Evaluation of the line 137-138 condition on a dict field entry. -/
theorem fieldQualifies_obj (kvs : List (String × JVal)) :
    fieldQualifies (JVal.obj kvs)
      = .ok (match List.lookup "referenceTo" kvs with
             | some (JVal.arr xs) => strElem xs "Account"
             | _ => false) := by
  cases hlk : List.lookup "referenceTo" kvs with
  | none => simp [fieldQualifies, pyIn, pyIndex, hlk, except_bind_ok, except_pure]
  | some v => cases v <;>
      simp [fieldQualifies, pyIn, pyIndex, hlk, except_bind_ok, except_pure]

/-- A non-qualifying entry contributes nothing to the collected list. -/
theorem collectFields_cons_neg (f : JVal) (rest : List JVal)
    (hq : fieldQualifies f = .ok false) :
    collectFields (f :: rest) = collectFields rest := by
  simp [collectFields, hq, except_bind_ok]

/-- C10: a `referenceTo` value that is present but not a list — for example
a single string, even one containing `"Account"` as a substring — never
qualifies, because of the `isinstance(..., list)` guard (source lines
137-138, 151-152). -/
theorem c10_nonlist_referenceTo : ∀ (kvs : List (String × JVal)) (v : JVal),
    List.lookup "referenceTo" kvs = some v →
    (∀ xs, v ≠ JVal.arr xs) →
    fieldQualifies (JVal.obj kvs) = .ok false
    ∧ ∀ rest : List JVal, collectFields (JVal.obj kvs :: rest) = collectFields rest := by
  intro kvs v hlk hnv
  have hq : fieldQualifies (JVal.obj kvs) = .ok false := by
    rw [fieldQualifies_obj, hlk]
    cases v with
    | arr xs => exact absurd rfl (hnv xs)
    | null => rfl
    | bool b => rfl
    | num r => rfl
    | str s => rfl
    | obj o => rfl
  exact ⟨hq, fun rest => collectFields_cons_neg (JVal.obj kvs) rest hq⟩

/-- Witness for C10: `referenceTo` equal to the plain string `"Account"`
(which would pass a substring test) does not qualify. -/
theorem c10_nonlist_referenceTo_witness :
    fieldQualifies (JVal.obj [("name", JVal.str "AccountId"),
      ("referenceTo", JVal.str "Account")]) = .ok false
    ∧ collectFields [JVal.obj [("name", JVal.str "AccountId"),
        ("referenceTo", JVal.str "Account")]] = .ok [] := by
  have h := c10_nonlist_referenceTo [("name", JVal.str "AccountId"),
    ("referenceTo", JVal.str "Account")] (JVal.str "Account") rfl (by intro xs h; cases h)
  exact ⟨h.1, h.2 []⟩

/-- C2: the `SelectedFields` sequence (line 184) starts with `Id` exactly
once, has no duplicates, is an order-preserving subsequence of
`Id :: collected names`, keeps exactly the names that occur, and lists them
in order of first occurrence. -/
theorem c2_selected_fields_invariants :
    ∀ (d : JVal) (namesJ : List JVal) (names : List String),
    field_list d = .ok namesJ →
    toStrings namesJ = some names →
    (selectedFields names).head? = some "Id"
    ∧ (selectedFields names).count "Id" = 1
    ∧ (selectedFields names).Nodup
    ∧ List.Sublist (selectedFields names) ("Id" :: names)
    ∧ (∀ a, a ∈ selectedFields names ↔ a ∈ ("Id" :: names))
    ∧ (selectedFields names).Pairwise
        (fun a b => firstIdx a ("Id" :: names) < firstIdx b ("Id" :: names)) := by
  intro d namesJ names hfl hts
  refine ⟨?_, ?_, nodup_pyDedup _, pyDedup_sublist _,
    fun a => mem_pyDedup a _, pyDedup_pairwise _⟩
  · simp [selectedFields, pyDedup]
  · have hnotmem : "Id" ∉ (pyDedup names).filter (fun y => y ≠ "Id") := by
      intro h
      rcases List.mem_filter.mp h with ⟨-, hne⟩
      simp at hne
    have hsel : selectedFields names
        = "Id" :: (pyDedup names).filter (fun y => y ≠ "Id") := rfl
    rw [hsel, List.count_cons_self, List.count_eq_zero_of_not_mem hnotmem]

/-- Witness for C2, on a describe response whose only qualifying field is
itself named `Id`: `SelectedFields` still begins with `Id` exactly once. -/
theorem c2_selected_fields_invariants_witness :
    (selectedFields ["Id"]).head? = some "Id"
    ∧ (selectedFields ["Id"]).count "Id" = 1
    ∧ (selectedFields ["Id"]).Nodup
    ∧ List.Sublist (selectedFields ["Id"]) ("Id" :: ["Id"])
    ∧ (∀ a, a ∈ selectedFields ["Id"] ↔ a ∈ ("Id" :: ["Id"]))
    ∧ (selectedFields ["Id"]).Pairwise
        (fun a b => firstIdx a ("Id" :: ["Id"]) < firstIdx b ("Id" :: ["Id"])) :=
  c2_selected_fields_invariants
    (JVal.obj [("fields", JVal.arr [JVal.obj [("name", JVal.str "Id"),
      ("referenceTo", JVal.arr [JVal.str "Account"])]])])
    [JVal.str "Id"] ["Id"] rfl rfl

/-! ### C4: locating the field list -/

/-- C5: when a parsed describe response survives the line 106-107 debug-keys
evaluation (it is falsy or a dict) and yields zero qualifying fields, the
object type's outcome is the `noFields` skip for every possible export-world
state — so no export invocation can influence it — and the run continues
with the remaining object types (source lines 165-168). -/
theorem c5_no_qualifying_fields :
    ∀ (objName out err : String) (d : JVal) (er : Option Int) (f : Bool),
    json_loads (describe_output out err) = some d →
    debugKeysStep d = .ok () →
    field_list d = .ok [] →
    (∀ (er2 : Option Int) (f2 : Bool),
        processObject objName (some (out, err)) er2 f2 = .ok .noFields)
    ∧ (∀ (rest : List ObjEnv) (os : List Outcome), runAll rest = .ok os →
        runAll (⟨objName, some (out, err), er, f⟩ :: rest) = .ok (.noFields :: os)) := by
  intro objName out err d er f hjson hdk hfl
  have hproc : ∀ (er2 : Option Int) (f2 : Bool),
      processObject objName (some (out, err)) er2 f2 = .ok .noFields := by
    intro er2 f2
    simp [processObject, hjson, hdk, hfl, except_bind_ok, except_pure]
  refine ⟨hproc, ?_⟩
  intro rest os hos
  simp [runAll, hproc er f, hos, except_bind_ok, except_pure]

/-- Witness for C5: a describe response with no fields at all is skipped and
the loop completes. -/
theorem c5_no_qualifying_fields_witness :
    processObject "Contact" (some ("[]", "")) none false = .ok .noFields
    ∧ runAll [⟨"Contact", some ("[]", ""), none, false⟩] = .ok [.noFields] := by
  have h := c5_no_qualifying_fields "Contact" "[]" "" (JVal.arr []) none false rfl rfl rfl
  exact ⟨h.1 none false, h.2 [] [] rfl⟩

/-! ### C6: export success verification -/

/-- C6: an export outcome is a success exactly when the invocation returned
exit code `0` (an invocation exception yields the sentinel `-1`) and the
output file exists afterwards; a non-zero code with a stale file, an
exception, or a zero code with a missing file all fail (source lines
230-235, 250-253). -/
theorem c6_success_iff : ∀ (er : Option Int) (f : Bool),
    verify (exportStep er) f = true ↔ (er = some 0 ∧ f = true) := by
  intro er f
  cases er with
  | none =>
    simp only [verify, exportStep, Bool.and_eq_true, beq_iff_eq]
    constructor
    · rintro ⟨h, -⟩; cases h
    · rintro ⟨h, -⟩; cases h
  | some c =>
    simp only [verify, exportStep, Bool.and_eq_true, beq_iff_eq, Option.some.injEq]

/-! ### C7: error isolation across the object loop -/

/-- C9 (amended): the text handed to the JSON parser (and dumped to the
describe file) is exactly stdout followed by stderr; whenever that combined
text is not valid JSON the object type is skipped as unparseable, and this
can happen even though stdout alone is well-formed JSON (non-whitespace
stderr after a complete document).  (The unamended claim — a non-empty
stderr always makes the combined text invalid — fails, for example for a
whitespace-only stderr; see the counterexample.) -/
theorem c9_combined_stream :
    (∀ out err : String, describe_output out err = out ++ err)
    ∧ (∀ (objName out err : String) (er : Option Int) (f : Bool),
      json_loads (describe_output out err) = none →
      processObject objName (some (out, err)) er f = .ok .unparseable)
    ∧ (json_loads "[]" = some (JVal.arr [])
        ∧ json_loads (describe_output "[]" "x") = none) := by
  refine ⟨fun out err => rfl, ?_, rfl, rfl⟩
  intro objName out err er f h
  simp [processObject, h]

/-- Witness for C9: well-formed stdout `[]` plus stderr `x` is rejected as a
whole and the object type is skipped. -/
theorem c9_combined_stream_witness :
    processObject "Contact" (some ("[]", "x")) none false = .ok .unparseable :=
  c9_combined_stream.2.1 "Contact" "[]" "x" none false rfl

/-- Counterexample to C9 as stated: stderr `"\n"` is non-empty, yet the
combined text `"[]\n"` is still valid JSON and the object type is processed
normally rather than skipped as unparseable. -/
theorem c9_counterexample :
    ("\n" : String) ≠ ""
    ∧ json_loads (describe_output "[]" "\n") = some (JVal.arr [])
    ∧ processObject "Contact" (some ("[]", "\n")) (some 0) true = .ok .noFields := by
  refine ⟨by decide, rfl, rfl⟩

end SFExport
